import Mathlib

/-!
Verification development for the AnonBot event-dispatch core
(`src/anonbot/...`).  The Python source is shallowly embedded: pure
computations become Lean functions, exceptions become explicit outcome
values, and the cooperative thread pool is determinized by an explicit
completion order.  Each section names the Python definitions it embeds.
-/

namespace AnonBot

/-!
## Task runtime: `anonbot/threading.py`

`gather(*sync_futures, return_exceptions)` (threading.py:314-349) submits
every unit to the pool, prepares `result = [None] * len(sync_futures)`,
then iterates `for future in as_completed(_futures)`:

* a future that raised `CancelledError` is skipped (`pass`), leaving
  `None` in its slot (threading.py:342-343);
* a future that raised another exception is stored in its slot when
  `return_exceptions` is true, otherwise re-raised (threading.py:344-348);
* a successful future stores its result in its input-index slot
  (threading.py:341).

A unit's eventual behaviour is one of three outcomes; the nondeterministic
completion order of `as_completed` is modelled as an explicit list of
input indices.
-/

/-- Eventual behaviour of one unit handed to `gather`: it returns a value,
raises an exception, or its future raises `CancelledError`
(threading.py:370-372; `CancelledError` derives `BaseException`, so the
generic `except Exception` arm never sees it). -/
inductive TaskOutcome (R E : Type) : Type where
  | value (r : R)
  | failure (e : E)
  | cancelled
  deriving DecidableEq, Repr

/-- The slot `gather` leaves in `result` for a completed unit:
`some (.inl r)` for a value, `some (.inr e)` for a substituted exception,
`none` for a cancelled unit (its slot keeps the initial `None`). -/
def TaskOutcome.slot {R E : Type} : TaskOutcome R E → Option (R ⊕ E)
  | .value r => some (Sum.inl r)
  | .failure e => some (Sum.inr e)
  | .cancelled => none

/-- One iteration of the `as_completed` loop body updating `result` at the
completed unit's input index (threading.py:339-348), in the
`return_exceptions=True` mode where exceptions are substituted. -/
def gatherWrite {R E : Type} (outcomes : List (TaskOutcome R E))
    (acc : List (Option (R ⊕ E))) (i : Nat) : List (Option (R ⊕ E)) :=
  match outcomes[i]? with
  | some (.value r) => acc.set i (some (Sum.inl r))
  | some (.failure e) => acc.set i (some (Sum.inr e))
  | _ => acc

/-- The `as_completed` loop of `gather` with `return_exceptions=True`:
cancelled futures are passed over, exceptions are written into their
slots. -/
def gatherLoopTrue {R E : Type} (outcomes : List (TaskOutcome R E)) :
    List Nat → List (Option (R ⊕ E)) → List (Option (R ⊕ E))
  | [], acc => acc
  | i :: rest, acc => gatherLoopTrue outcomes rest (gatherWrite outcomes acc i)

/-- The `as_completed` loop of `gather` with `return_exceptions=False`:
the first exception met in completion order is re-raised
(threading.py:348); cancelled futures are still passed over. -/
def gatherLoopFalse {R E : Type} (outcomes : List (TaskOutcome R E)) :
    List Nat → List (Option (R ⊕ E)) → Except E (List (Option (R ⊕ E)))
  | [], acc => .ok acc
  | i :: rest, acc =>
    match outcomes[i]? with
    | some (.failure e) => .error e
    | some (.value r) => gatherLoopFalse outcomes rest (acc.set i (some (Sum.inl r)))
    | _ => gatherLoopFalse outcomes rest acc

/-- `gather` (threading.py:314-349): `order` is the completion order of
`as_completed` over the submitted futures, as a list of input indices. -/
def gather {R E : Type} (outcomes : List (TaskOutcome R E)) (order : List Nat)
    (returnExceptions : Bool) : Except E (List (Option (R ⊕ E))) :=
  if returnExceptions then
    .ok (gatherLoopTrue outcomes order (List.replicate outcomes.length none))
  else
    gatherLoopFalse outcomes order (List.replicate outcomes.length none)

/-- The `result` list produced by `gather` when no exception is re-raised. -/
def gatherResult {R E : Type} (outcomes : List (TaskOutcome R E))
    (order : List Nat) : List (Option (R ⊕ E)) :=
  gatherLoopTrue outcomes order (List.replicate outcomes.length none)

/-- The exception of the earliest-completing failed unit, following the
completion order. -/
def firstFailure {R E : Type} (outcomes : List (TaskOutcome R E)) :
    List Nat → Option E
  | [] => none
  | i :: rest =>
    match outcomes[i]? with
    | some (.failure e) => some e
    | _ => firstFailure outcomes rest

theorem gatherWrite_length {R E : Type} (outcomes : List (TaskOutcome R E))
    (acc : List (Option (R ⊕ E))) (i : Nat) :
    (gatherWrite outcomes acc i).length = acc.length := by
  unfold gatherWrite
  cases h : outcomes[i]? with
  | none => rfl
  | some o => cases o <;> simp

theorem gatherLoopTrue_length {R E : Type} (outcomes : List (TaskOutcome R E))
    (order : List Nat) (acc : List (Option (R ⊕ E))) :
    (gatherLoopTrue outcomes order acc).length = acc.length := by
  induction order generalizing acc with
  | nil => rfl
  | cons i rest ih =>
    rw [gatherLoopTrue, ih, gatherWrite_length]

theorem gatherWrite_cancelled {R E : Type} (outcomes : List (TaskOutcome R E))
    (acc : List (Option (R ⊕ E))) (i : Nat)
    (h : outcomes[i]? = some TaskOutcome.cancelled) :
    gatherWrite outcomes acc i = acc := by
  unfold gatherWrite
  rw [h]

theorem gatherWrite_get_ne {R E : Type} (outcomes : List (TaskOutcome R E))
    (acc : List (Option (R ⊕ E))) (i j : Nat) (hij : i ≠ j) :
    (gatherWrite outcomes acc i)[j]? = acc[j]? := by
  unfold gatherWrite
  cases h : outcomes[i]? with
  | none => rfl
  | some o => cases o <;> simp [List.getElem?_set, hij]

theorem gatherWrite_get_self {R E : Type} (outcomes : List (TaskOutcome R E))
    (acc : List (Option (R ⊕ E))) (j : Nat)
    (hlen : acc.length = outcomes.length) (hj : j < outcomes.length)
    (hacc : outcomes[j] = TaskOutcome.cancelled → acc[j]? = some none) :
    (gatherWrite outcomes acc j)[j]? = some ((outcomes[j]).slot) := by
  unfold gatherWrite
  have houtj : outcomes[j]? = some (outcomes[j]) := List.getElem?_eq_getElem hj
  rw [houtj]
  cases ho : outcomes[j] with
  | value r => simp [TaskOutcome.slot, List.getElem?_set, hlen, hj]
  | failure e => simp [TaskOutcome.slot, List.getElem?_set, hlen, hj]
  | cancelled => simpa [TaskOutcome.slot] using hacc ho

/-- Loop invariant for `gatherLoopTrue`: once slot `j` holds its final
value (or is still `none` and `j` is yet to complete), it ends up holding
`outcomes[j].slot`. -/
theorem gatherLoopTrue_get {R E : Type} (outcomes : List (TaskOutcome R E))
    (order : List Nat) (acc : List (Option (R ⊕ E))) (j : Nat)
    (hlen : acc.length = outcomes.length) (hj : j < outcomes.length)
    (hinv : acc[j]? = some ((outcomes[j]).slot) ∨
      (j ∈ order ∧ acc[j]? = some none)) :
    (gatherLoopTrue outcomes order acc)[j]? = some ((outcomes[j]).slot) := by
  induction order generalizing acc with
  | nil =>
    rcases hinv with h | ⟨hmem, _⟩
    · exact h
    · exact absurd hmem (List.not_mem_nil j)
  | cons i rest ih =>
    rw [gatherLoopTrue]
    have hlen2 : (gatherWrite outcomes acc i).length = outcomes.length := by
      rw [gatherWrite_length, hlen]
    refine ih _ hlen2 ?_
    rcases Decidable.em (i = j) with hij | hij
    · subst hij
      left
      rcases hinv with h | ⟨_, hnone⟩
      · have houtj : outcomes[i]? = some (outcomes[i]) := List.getElem?_eq_getElem hj
        cases ho : outcomes[i] with
        | value r =>
          unfold gatherWrite
          rw [houtj, ho]
          simp [TaskOutcome.slot, ho, List.getElem?_set, hlen, hj]
        | failure e =>
          unfold gatherWrite
          rw [houtj, ho]
          simp [TaskOutcome.slot, ho, List.getElem?_set, hlen, hj]
        | cancelled =>
          rw [gatherWrite_cancelled outcomes acc i (by rw [houtj, ho]), ← ho]
          exact h
      · exact gatherWrite_get_self outcomes acc i hlen hj (fun _ => hnone)
    · rcases hinv with h | ⟨hmem, hnone⟩
      · left
        rw [gatherWrite_get_ne outcomes acc i j hij]
        exact h
      · right
        have hmem2 : j ∈ rest := by
          rcases List.mem_cons.mp hmem with h | h
          · exact absurd h.symm hij
          · exact h
        refine ⟨hmem2, ?_⟩
        rw [gatherWrite_get_ne outcomes acc i j hij]
        exact hnone

/-- With `return_exceptions=False` and no failing unit, the loop computes
the same result list as the substituting loop. -/
theorem gatherLoopFalse_ok {R E : Type} (outcomes : List (TaskOutcome R E))
    (order : List Nat) (acc : List (Option (R ⊕ E)))
    (hnf : firstFailure outcomes order = none) :
    gatherLoopFalse outcomes order acc = .ok (gatherLoopTrue outcomes order acc) := by
  induction order generalizing acc with
  | nil => rfl
  | cons i rest ih =>
    rw [gatherLoopFalse, gatherLoopTrue]
    rw [firstFailure] at hnf
    unfold gatherWrite
    cases h : outcomes[i]? with
    | none =>
      rw [h] at hnf
      exact ih acc (by simpa using hnf)
    | some o =>
      rw [h] at hnf
      cases o with
      | value r => exact ih _ (by simpa using hnf)
      | failure e => simp at hnf
      | cancelled => exact ih acc (by simpa using hnf)

/-- With `return_exceptions=False`, the earliest-completing failure is
re-raised. -/
theorem gatherLoopFalse_error {R E : Type} (outcomes : List (TaskOutcome R E))
    (order : List Nat) (acc : List (Option (R ⊕ E))) (e : E)
    (hf : firstFailure outcomes order = some e) :
    gatherLoopFalse outcomes order acc = .error e := by
  induction order generalizing acc with
  | nil => simp [firstFailure] at hf
  | cons i rest ih =>
    rw [gatherLoopFalse]
    rw [firstFailure] at hf
    cases h : outcomes[i]? with
    | none =>
      rw [h] at hf
      exact ih acc (by simpa using hf)
    | some o =>
      rw [h] at hf
      cases o with
      | value r => exact ih _ (by simpa using hf)
      | failure e2 => simpa using hf
      | cancelled => exact ih acc (by simpa using hf)

/-- C5: for every list of input units, `gather` returns a result list of
the same length whose slot `j` corresponds to input unit `j` (same order
as the inputs, whatever the completion order); with
`return_exceptions=True` slot `j` holds unit `j`'s value or the exception
it raised (`TaskOutcome.slot`); with `return_exceptions=False` the
exception of the earliest-completing failed unit propagates, and when no
unit fails the same ordered result list is returned. -/
theorem gather_same_order_results {R E : Type} (outcomes : List (TaskOutcome R E))
    (order : List Nat) (hcover : ∀ i, i < outcomes.length → i ∈ order) :
    (gatherResult outcomes order).length = outcomes.length ∧
    (∀ j, (hj : j < outcomes.length) →
      (gatherResult outcomes order)[j]? = some ((outcomes[j]).slot)) ∧
    gather outcomes order true = .ok (gatherResult outcomes order) ∧
    (firstFailure outcomes order = none →
      gather outcomes order false = .ok (gatherResult outcomes order)) ∧
    (∀ e, firstFailure outcomes order = some e →
      gather outcomes order false = .error e) := by
  refine ⟨?_, ?_, ?_, ?_, ?_⟩
  · rw [gatherResult, gatherLoopTrue_length, List.length_replicate]
  · intro j hj
    refine gatherLoopTrue_get outcomes order _ j (by simp) hj ?_
    right
    exact ⟨hcover j hj, by simp [List.getElem?_replicate, hj]⟩
  · simp [gather, gatherResult]
  · intro hnf
    rw [gather, if_neg (by simp), gatherResult]
    exact gatherLoopFalse_ok outcomes order _ hnf
  · intro e hf
    rw [gather, if_neg (by simp)]
    exact gatherLoopFalse_error outcomes order _ e hf

/-- Concrete units used to instantiate the `gather` theorems. -/
def sampleOutcomes : List (TaskOutcome Nat String) :=
  [TaskOutcome.value 10, TaskOutcome.cancelled, TaskOutcome.failure "boom"]

/-- A completion order where the failing unit finishes first. -/
def sampleOrder : List Nat := [2, 0, 1]

/-- Witness for C5 at concrete units: the length and order guarantees and
the propagation of the first-completed failure. -/
theorem gather_same_order_results_witness :
    (gatherResult sampleOutcomes sampleOrder).length = 3 ∧
    (gatherResult sampleOutcomes sampleOrder)[0]? = some (some (Sum.inl 10)) ∧
    gather sampleOutcomes sampleOrder false = Except.error "boom" :=
  have h := gather_same_order_results sampleOutcomes sampleOrder (by decide)
  ⟨h.1, h.2.1 0 (by decide), h.2.2.2.2 "boom" (by decide)⟩

/-- Concrete units with a cancellation and no failure. -/
def sampleOutcomes2 : List (TaskOutcome Nat String) :=
  [TaskOutcome.value 10, TaskOutcome.cancelled, TaskOutcome.value 5]

/-- C10: a cancelled unit is silently swallowed by `gather`
(threading.py:342-343): its result slot keeps the initial `None` — it is
reported neither as a value nor as a substituted exception — and the
cancellation never propagates out of `gather`, under both settings of
`return_exceptions` (with `return_exceptions=False`, `gather` still
returns normally whenever no unit raised an ordinary exception). -/
theorem gather_cancelled_leaves_none {R E : Type} (outcomes : List (TaskOutcome R E))
    (order : List Nat) (k : Nat) (hk : k < outcomes.length)
    (hcan : outcomes[k] = TaskOutcome.cancelled) :
    (gatherResult outcomes order)[k]? = some none ∧
    gather outcomes order true = .ok (gatherResult outcomes order) ∧
    (firstFailure outcomes order = none →
      gather outcomes order false = .ok (gatherResult outcomes order)) := by
  refine ⟨?_, by simp [gather, gatherResult], ?_⟩
  · have h := gatherLoopTrue_get outcomes order
      (List.replicate outcomes.length none) k (by simp) hk
      (Or.inl (by simp [List.getElem?_replicate, hk, hcan, TaskOutcome.slot]))
    rw [gatherResult, h, hcan]
    rfl
  · intro hnf
    rw [gather, if_neg (by simp), gatherResult]
    exact gatherLoopFalse_ok outcomes order _ hnf

/-- Witness for C10 at concrete units: the cancelled unit's slot is `None`
and `gather` with `return_exceptions=False` still returns normally. -/
theorem gather_cancelled_leaves_none_witness :
    (gatherResult sampleOutcomes2 sampleOrder)[1]? = some none ∧
    gather sampleOutcomes2 sampleOrder false =
      Except.ok (gatherResult sampleOutcomes2 sampleOrder) :=
  have h := gather_cancelled_leaves_none sampleOutcomes2 sampleOrder 1
    (by decide) (by decide)
  ⟨h.1, h.2.2 (by decide)⟩

/-!
## Rule & Permission engine: `anonbot/internal/rule.py`, `anonbot/internal/permission.py`

Checkers are `Dependent[bool]` values; `Dependent` is a frozen dataclass,
so Python's set literal in `Rule.__init__` (rule.py:25-33) and
`Permission.__init__` (permission.py:25-31) deduplicates structurally
equal checkers.  The checker type is abstract here (`C` with decidable
equality); evaluating a checker either returns a `Bool` or raises
`SkippedException`, modelled as `Option Bool` with `none` for the skip
signal.
-/

/-- `Rule` (rule.py:12-33): a set of checkers. -/
structure Rule (C : Type) [DecidableEq C] : Type where
  checkers : Finset C

/-- `Permission` (permission.py:13-31): a set of checkers. -/
structure Permission (C : Type) [DecidableEq C] : Type where
  checkers : Finset C

/-- `Rule(*checkers)` built from an argument list; the set comprehension
deduplicates structurally equal checkers (rule.py:26-33). -/
def mkRule {C : Type} [DecidableEq C] (cs : List C) : Rule C :=
  ⟨cs.toFinset⟩

/-- `Permission(*checkers)` built from an argument list
(permission.py:26-31). -/
def mkPermission {C : Type} [DecidableEq C] (cs : List C) : Permission C :=
  ⟨cs.toFinset⟩

/-- `Rule.__call__` (rule.py:38-63): every checker is gathered; a
`SkippedException` escaping the gather is caught around the whole loop and
yields `False`; otherwise the result is `all(result)` (so an empty rule is
`True`). -/
def Rule.call {C : Type} [DecidableEq C] (r : Rule C) (ev : C → Option Bool) : Bool :=
  if ∃ c ∈ r.checkers, ev c = none then false
  else decide (∀ c ∈ r.checkers, (ev c).getD false = true)

/-- `Permission.__call__` (permission.py:36-58): with no checkers the
permission is `True`; otherwise each checker runs under
`run_with_catch(..., SkippedException, False)` and the result is
`any(result)`. -/
def Permission.call {C : Type} [DecidableEq C] (p : Permission C) (ev : C → Option Bool) : Bool :=
  if p.checkers = ∅ then true
  else decide (∃ c ∈ p.checkers, (ev c).getD false = true)

/-- `Permission.__or__` (permission.py:63-71): `Permission(*self.checkers,
*other.checkers)` — the elements of both checker sets are splatted into a
new `Permission`, whose set constructor recollects them, i.e. the new
checker set is the union of the two. -/
def Permission.orCombine {C : Type} [DecidableEq C] (p q : Permission C) : Permission C :=
  ⟨p.checkers ∪ q.checkers⟩

/-- A `Permission` is determined by its checker set. -/
theorem Permission.eq_of_checkers_eq {C : Type} [DecidableEq C]
    {p q : Permission C} (h : p.checkers = q.checkers) : p = q := by
  cases p
  cases q
  cases h
  rfl

/-- C3: `Rule(A, B)` evaluates true iff both `A` and `B` evaluate true;
`Permission(A, B)` evaluates true iff at least one does;
`Permission(A) | Permission(B)` produces a `Permission` whose checker set
is the set union `{A} ∪ {B}` — structurally equal checkers are
deduplicated, not duplicated — and whose evaluation is that of
`Permission(A, B)`. -/
theorem rule_and_permission_or_semantics {C : Type} [DecidableEq C]
    (ev : C → Option Bool) (A B : C) (a b : Bool)
    (hA : ev A = some a) (hB : ev B = some b) :
    (mkRule [A, B]).call ev = (a && b) ∧
    (mkPermission [A, B]).call ev = (a || b) ∧
    ((mkPermission [A]).orCombine (mkPermission [B])).checkers = {A} ∪ {B} ∧
    ((mkPermission [A]).orCombine (mkPermission [B])).checkers
      = (mkPermission [A, B]).checkers ∧
    ((mkPermission [A]).orCombine (mkPermission [B])).call ev
      = (mkPermission [A, B]).call ev := by
  have hunion : ((mkPermission [A]).orCombine (mkPermission [B])).checkers
      = ({A} ∪ {B} : Finset C) := by
    rw [Permission.orCombine]
    simp [mkPermission]
  have hset : ((mkPermission [A]).orCombine (mkPermission [B])).checkers
      = (mkPermission [A, B]).checkers := by
    rw [hunion, mkPermission]
    ext c
    simp
  refine ⟨?_, ?_, hunion, hset, ?_⟩
  · rw [mkRule, Rule.call, if_neg]
    · simp only [List.toFinset_cons, List.toFinset_nil, insert_emptyc_eq,
        Finset.mem_insert, Finset.mem_singleton]
      cases a <;> cases b <;> simp_all
    · rintro ⟨c, hc, hev⟩
      simp only [List.toFinset_cons, List.toFinset_nil, insert_emptyc_eq,
        Finset.mem_insert, Finset.mem_singleton] at hc
      rcases hc with rfl | rfl <;> simp_all
  · rw [mkPermission, Permission.call, if_neg]
    · simp only [List.toFinset_cons, List.toFinset_nil, insert_emptyc_eq,
        Finset.mem_insert, Finset.mem_singleton]
      cases a <;> cases b <;> simp_all
    · simp
  · rw [Permission.eq_of_checkers_eq hset]

/-- Concrete checker evaluation for the C3 witness: checker `0` is true,
every other checker is false, none skips. -/
def sampleEval : Nat → Option Bool :=
  fun c => if c = 0 then some true else some false

/-- Witness for C3 at concrete checkers `A = 0` (true) and `B = 1`
(false). -/
theorem rule_and_permission_or_semantics_witness :
    (mkRule [0, 1]).call sampleEval = (true && false) ∧
    (mkPermission [0, 1]).call sampleEval = (true || false) ∧
    ((mkPermission [0]).orCombine (mkPermission [1])).checkers = {0, 1} ∧
    ((mkPermission [0]).orCombine (mkPermission [1])).checkers
      = (mkPermission [0, 1]).checkers ∧
    ((mkPermission [0]).orCombine (mkPermission [1])).call sampleEval
      = (mkPermission [0, 1]).call sampleEval := by
  have h := rule_and_permission_or_semantics sampleEval 0 1 true false rfl rfl
  refine ⟨h.1, h.2.1, ?_, h.2.2.2.1, h.2.2.2.2⟩
  rw [h.2.2.1]
  rfl

/-!
## Dependency resolver: `anonbot/dependency/__init__.py`, `anonbot/dependency/utils.py`,
## `anonbot/internal/params.py`

Provider-kind matching predicates (`_check_param`) do Python
introspection and are abstract here: a kind is a function
`PyParameter → Option Nat` returning the matched field info (an opaque
id) or `none`.  Values and annotations are opaque `Nat`s.
-/

/-- One formal parameter of a Python callable as `Dependent.parse_params`
sees it (dependency/__init__.py:92-109): its name and, when the declared
default value is itself a `Param` instance, that `Param`s field info. -/
structure PyParameter : Type where
  name : String
  defaultParam : Option Nat
  deriving DecidableEq, Repr

/-- Errors raised while parsing a callable at registration time. -/
inductive ParseError : Type where
  /-- `ValueError(f'Unknown parameter {name} ...')`: no allowed provider
  kind matched (dependency/__init__.py:105-109). -/
  | unknownParameter (name : String)
  /-- The `TypeError` raised by
  `ParameterField(name=..., type_=..., field_info=...)`
  (dependency/__init__.py:116-122): the dataclass `ParameterField`
  (dependency/utils.py:41-47) has fields `name`, `annotation` and
  `field_info` but no `type_`, so this constructor call raises
  `TypeError: unexpected keyword argument` for every parameter that did
  find a field info. -/
  | unexpectedKeywordTypeKw
  deriving DecidableEq, Repr

/-- The `for allow_type in allow_types` loop
(dependency/__init__.py:102-104): first matching kind wins. -/
def firstMatch (kinds : List (PyParameter → Option Nat)) (p : PyParameter) : Option Nat :=
  match kinds with
  | [] => none
  | k :: rest =>
    match k p with
    | some fi => some fi
    | none => firstMatch rest p

/-- `Dependent.parse_params` (dependency/__init__.py:87-124): for each
parameter take the default `Param` if the default value is one, else the
first matching allowed kind — raising `ValueError` naming the parameter
when none matches; a parameter with a field info then reaches the
`ParameterField(name=..., type_=..., field_info=...)` construction, which
raises `TypeError` (see `ParseError.unexpectedKeywordTypeKw`), so no
`ParameterField` list is ever produced for a non-empty parameter list. -/
def parse_params (kinds : List (PyParameter → Option Nat)) :
    List PyParameter → Except ParseError (List (String × Nat))
  | [] => .ok []
  | p :: _rest =>
    match p.defaultParam with
    | some _fi => .error ParseError.unexpectedKeywordTypeKw
    | none =>
      match firstMatch kinds p with
      | none => .error (ParseError.unknownParameter p.name)
      | some _fi => .error ParseError.unexpectedKeywordTypeKw

/-- `Dependent.parse` (dependency/__init__.py:140-156): parses the formal
parameters at registration time; `parse_parameterless` runs after and is
irrelevant once `parse_params` has raised. -/
def Dependent.parse (kinds : List (PyParameter → Option Nat))
    (params : List PyParameter) : Except ParseError (List (String × Nat)) :=
  parse_params kinds params

/-- The single allowed provider kind used in the C7 instantiation: it
matches a parameter named `bot`. -/
def sampleKinds : List (PyParameter → Option Nat) :=
  [fun p => if p.name = "bot" then some 1 else none]

/-- A parameter the sample kind matches. -/
def botParameter : PyParameter := ⟨"bot", none⟩

/-- A parameter matching no allowed kind. -/
def strayParameter : PyParameter := ⟨"stray", none⟩

/-- C7 (divergence): a callable with a parameter matching none of the
allowed kinds always fails at registration time — `Dependent.parse` never
returns a parsed `Dependent`, so the failure is never deferred to
dispatch — but the error does not always identify the offending
parameter: when a matching parameter precedes it, the `TypeError` from
the `ParameterField(type_=...)` constructor call fires first, at the
matching parameter; only when the offending parameter comes first is the
identifying `ValueError` raised. -/
theorem dependent_parse_fails_at_registration
    (kinds : List (PyParameter → Option Nat)) (params : List PyParameter)
    (p : PyParameter) (hp : p ∈ params) (hdef : p.defaultParam = none)
    (hnm : firstMatch kinds p = none) :
    (Dependent.parse kinds params).isOk = false ∧
    Dependent.parse sampleKinds [botParameter, strayParameter]
      = .error ParseError.unexpectedKeywordTypeKw ∧
    Dependent.parse sampleKinds [strayParameter, botParameter]
      = .error (ParseError.unknownParameter "stray") := by
  refine ⟨?_, rfl, rfl⟩
  cases params with
  | nil => exact absurd hp (List.not_mem_nil p)
  | cons q rest =>
    rw [Dependent.parse, parse_params]
    cases hq : q.defaultParam with
    | some fi => rfl
    | none =>
      cases hm : firstMatch kinds q with
      | none => rfl
      | some fi => rfl

/-- Witness for C7: the stray parameter makes registration fail for both
orderings of the parameter list. -/
theorem dependent_parse_fails_at_registration_witness :
    (Dependent.parse sampleKinds [botParameter, strayParameter]).isOk = false ∧
    Dependent.parse sampleKinds [botParameter, strayParameter]
      = .error ParseError.unexpectedKeywordTypeKw ∧
    Dependent.parse sampleKinds [strayParameter, botParameter]
      = .error (ParseError.unknownParameter "stray") :=
  dependent_parse_fails_at_registration sampleKinds
    [botParameter, strayParameter] strayParameter
    (by simp [botParameter, strayParameter]) rfl rfl

/-!
### Field solving and validation (`Dependent._solve_field`, `check_field_type`)

The pydantic validation
`TypeAdapter(Annotated[annotation, field_info], ...).validate_python(value)`
is abstract: `check ann v = some coerced` models success returning the
coerced value, `none` models the `ValueError` (pydantic raises
`ValidationError`, a `ValueError` subclass) that `check_field_type` turns
into `TypeMisMatch(field, value)`.
-/

/-- A `ParameterField` as `_solve_field` uses it: name, declared
annotation, and the value of `field.get_default()`
(`PydanticUndefined` is just another opaque value here). -/
structure ParameterFieldM : Type where
  name : String
  annotation : Nat
  default : Nat
  deriving DecidableEq, Repr

/-- The provider attached to a field, as `_solve_field` uses it: its
`validate` flag and the value its `_solve(**params)` returned (`none`
models Python `None`). -/
structure ParamM : Type where
  validate : Bool
  solved : Option Nat
  deriving DecidableEq, Repr

/-- The error raised by a failed field resolution:
`TypeMisMatch(field, value)` (exception.py:19-30) carries the offending
field and value; it subclasses `SkippedException`, so the owning
handler is skipped by the `except SkippedException` arm of
`Processor._run` (processor.py:597-598) instead of failing the run. -/
inductive SolveError : Type where
  | typeMisMatch (paramName : String) (value : Nat)
  deriving DecidableEq, Repr

/-- `check_field_type` (dependency/utils.py:119-126): validate `value`
against the declared annotation; a `ValueError` from pydantic is caught
and re-raised as `TypeMisMatch(field, value)` — no other error type
escapes. -/
def check_field_type (check : Nat → Nat → Option Nat) (f : ParameterFieldM)
    (v : Nat) : Except SolveError Nat :=
  match check f.annotation v with
  | some coerced => .ok coerced
  | none => .error (SolveError.typeMisMatch f.name v)

/-- The value `_solve_field` works with: the provider's solved value, or
the field default when the provider returned `None`
(dependency/__init__.py:166-168). -/
def resolvedValue (f : ParameterFieldM) (p : ParamM) : Nat :=
  match p.solved with
  | some v => v
  | none => f.default

/-- `Dependent._solve_field` (dependency/__init__.py:164-170): the
resolved value is always passed through `check_field_type`; the coerced
value is returned only when the provider is marked `validate`, otherwise
the raw value is returned. -/
def solve_field (check : Nat → Nat → Option Nat) (f : ParameterFieldM)
    (p : ParamM) : Except SolveError Nat :=
  match check_field_type check f (resolvedValue f p) with
  | .error e => .error e
  | .ok v => .ok (if p.validate then v else resolvedValue f p)

/-- Modelled from the spec: the resolved value is passed through the
type/shape check when and only when the provider is marked `validate`
(the code instead always checks). -/
def solve_field_speconly (check : Nat → Nat → Option Nat) (f : ParameterFieldM)
    (p : ParamM) : Except SolveError Nat :=
  if p.validate then
    match check_field_type check f (resolvedValue f p) with
    | .error e => .error e
    | .ok v => .ok v
  else .ok (resolvedValue f p)

/-- An annotation check that rejects every value (no coercion
succeeds). -/
def rejectingCheck : Nat → Nat → Option Nat := fun _ _ => none

/-- A concrete field for the C8 counterexample. -/
def sampleField : ParameterFieldM := ⟨"x", 0, 0⟩

/-- A provider not marked `validate` whose solve produced `5`. -/
def nonValidatingParam : ParamM := ⟨false, some 5⟩

/-- C8 counterexample: a provider NOT marked `validate` still has its
resolved value passed through the type/shape check — `_solve_field`
fails with `TypeMisMatch` where the claimed only-when-validate behaviour
would succeed with the raw value. -/
theorem solve_field_checks_without_validate :
    solve_field rejectingCheck sampleField nonValidatingParam
      = .error (SolveError.typeMisMatch "x" 5) ∧
    solve_field_speconly rejectingCheck sampleField nonValidatingParam
      = .ok 5 ∧
    solve_field rejectingCheck sampleField nonValidatingParam
      ≠ solve_field_speconly rejectingCheck sampleField nonValidatingParam := by
  refine ⟨rfl, rfl, ?_⟩
  intro h
  have h1 : solve_field rejectingCheck sampleField nonValidatingParam
      = .error (SolveError.typeMisMatch "x" 5) := rfl
  have h2 : solve_field_speconly rejectingCheck sampleField nonValidatingParam
      = .ok 5 := rfl
  rw [h1, h2] at h
  exact Except.noConfusion h

/-- C8 amended: `_solve_field` always passes the resolved value through
`check_field_type`, regardless of the `validate` flag; on mismatch it
fails with `TypeMisMatch` identifying the parameter and the offending
value (and with no other error type); on success the `validate` flag
only selects whether the coerced or the raw value is returned. -/
theorem solve_field_always_checks (check : Nat → Nat → Option Nat)
    (f : ParameterFieldM) (p : ParamM) (res : Option Nat)
    (hres : check f.annotation (resolvedValue f p) = res) :
    solve_field check f p =
      (match res with
        | none => .error (SolveError.typeMisMatch f.name (resolvedValue f p))
        | some c => .ok (if p.validate then c else resolvedValue f p)) := by
  cases res with
  | none =>
    simp only [solve_field, check_field_type, hres]
  | some c =>
    simp only [solve_field, check_field_type, hres]

/-- Witness for the amended C8 at a concrete mismatching input. -/
theorem solve_field_always_checks_witness :
    solve_field rejectingCheck sampleField ⟨true, some 9⟩
      = .error (SolveError.typeMisMatch "x" 9) :=
  solve_field_always_checks rejectingCheck sampleField ⟨true, some 9⟩ none rfl

/-!
### Sub-dependency cache (`DependParam._solve`, internal/params.py:160-187)

The inner callable's side effects are modelled by an invocation counter:
`results n` is the value the callable produces on its `(n+1)`-th
invocation.  The dependency cache maps callable ids to stored values.
-/

/-- The per-dispatch dependency state: the shared `dependency_cache`
(keyed by the inner callable) and how many times the inner callable has
actually been invoked. -/
structure DepState : Type where
  cache : List (Nat × Nat)
  invocations : Nat
  deriving DecidableEq, Repr

/-- One invocation `call(**sub_values)` of the inner callable. -/
def invokeCall (results : Nat → Nat) (st : DepState) : Nat × DepState :=
  (results st.invocations, ⟨st.cache, st.invocations + 1⟩)

/-- `DependParam._solve` (internal/params.py:160-187) for a non-generator
dependency: the sub-dependency is solved first (not modelled here); the
cache is consulted only when `use_cache` is set
(`if use_cache and call in dependency_cache: return dependency_cache[call]`);
on a miss, `dependency_cache[call] = call(**sub_values)` runs the
callable once and stores that first result, and `return call(**sub_values)`
runs the callable a second time and returns that second result. -/
def dependParamSolve (useCache : Bool) (call : Nat) (results : Nat → Nat)
    (st : DepState) : Nat × DepState :=
  match (if useCache then st.cache.lookup call else none) with
  | some v => (v, st)
  | none =>
    let r1 := invokeCall results st
    let st2 : DepState := ⟨(call, r1.1) :: r1.2.cache, r1.2.invocations⟩
    let r2 := invokeCall results st2
    (r2.1, r2.2)

/-- C9 (divergence): with `use_cache=True` and a cold cache, a single
resolution of the sub-dependency invokes the inner callable TWICE — the
first invocation's result is stored in the cache, the second is returned —
so the value seen by the first resolution differs from the cached value
every later resolution returns.  Here the callable returns its invocation
index: the first resolution returns `1` (second invocation) and leaves
`0` in the cache with 2 invocations recorded; the next resolution hits
the cache and returns `0 ≠ 1`. -/
theorem depend_param_double_invocation :
    dependParamSolve true 7 (fun n => n) ⟨[], 0⟩ = (1, ⟨[(7, 0)], 2⟩) ∧
    (dependParamSolve true 7 (fun n => n) ⟨[], 0⟩).2.invocations = 2 ∧
    dependParamSolve true 7 (fun n => n) ⟨[(7, 0)], 2⟩ = (0, ⟨[(7, 0)], 2⟩) ∧
    (dependParamSolve true 7 (fun n => n) ⟨[], 0⟩).1
      ≠ (dependParamSolve true 7 (fun n => n)
          (dependParamSolve true 7 (fun n => n) ⟨[], 0⟩).2).1 := by
  refine ⟨rfl, rfl, rfl, ?_⟩
  decide

/-!
## Processor state machine: `anonbot/internal/processor/processor.py`

A handler is abstracted by what its invocation does: return normally or
raise one of the control-flow exceptions (exception.py).  Permission
checkers are either opaque predicates or `User` checkers
(permission.py:83-129), which is all `update_permission` needs.
-/

/-- What running one handler does: return, or raise `SkippedException`,
`FinishedException`, `PausedException`, `RejectedException`,
`StopPropagation`, or any other exception. -/
inductive HandlerSignal : Type where
  | normal
  | skip
  | finish
  | pause
  | reject
  | stop
  | err
  deriving DecidableEq, Repr

/-- One handler of a `Processor`s chain: an identity plus its behaviour
when run. -/
structure HandlerM : Type where
  id : Nat
  sig : HandlerSignal
  deriving DecidableEq, Repr

/-- A permission checker: an opaque predicate with a fixed outcome, or a
`User` checker (permission.py:83-129) holding a session-id whitelist and
an optional wrapped permission (its checker list). -/
inductive PermCheckerM : Type where
  | plain (id : Nat) (holds : Bool)
  | user (users : List String) (perm : Option (List PermCheckerM))

/-- A canonical event: all `update_permission` reads from it is
`event.get_session_id()`. -/
structure EventM : Type where
  sessionId : String
  deriving DecidableEq, Repr

/-- `User._clean_permission` (permission.py:113-119): a permission whose
single checker is itself a `User` is unwrapped to that checker's inner
permission; anything else is kept as is. -/
def cleanPermission : List PermCheckerM → Option (List PermCheckerM)
  | [PermCheckerM.user _ inner] => inner
  | perm => some perm

/-- `User.from_event` (permission.py:121-124): a `User` checker for
exactly the event's session id, wrapping the cleaned permission. -/
def userFromEvent (e : EventM) (perm : List PermCheckerM) : PermCheckerM :=
  PermCheckerM.user [e.sessionId] (cleanPermission perm)

mutual

/-- Evaluation of one permission checker against a session id:
`User.__call__` (permission.py:104-111) requires `session in self.users`
and, if a permission is wrapped, that it holds too. -/
def PermCheckerM.eval (s : String) : PermCheckerM → Bool
  | .plain _ b => b
  | .user users perm =>
    users.contains s &&
      (match perm with
        | none => true
        | some cs => permissionHolds s cs)

/-- `Permission.__call__` over a checker list: true when empty, else any
checker true (permission.py:36-58). -/
def permissionHolds (s : String) : List PermCheckerM → Bool
  | [] => true
  | c :: rest => permissionAny s (c :: rest)

/-- `any(...)` over a non-empty checker list. -/
def permissionAny (s : String) : List PermCheckerM → Bool
  | [] => false
  | c :: rest => PermCheckerM.eval s c || permissionAny s rest

end

/-- `expire_time` as stored on a processor type: `None`, an absolute
`datetime`, or a raw `timedelta` (only reachable for a zero — hence
falsy — timedelta, see `newExpireTime`). -/
inductive ExpireTime : Type where
  | never
  | absolute (t : Nat)
  | rawDelta (d : Nat)
  deriving DecidableEq, Repr

/-- The conversion in `Processor.new` (processor.py:214-219):
`expire_time and (expire_time if isinstance(expire_time, datetime) else
datetime.now() + expire_time)` — a `timedelta` is added to the current
time, except that `None` and the falsy `timedelta(0)` short-circuit the
`and` and are stored unconverted. -/
def newExpireTime (now : Nat) : ExpireTime → ExpireTime
  | .never => .never
  | .absolute t => .absolute t
  | .rawDelta 0 => .rawDelta 0
  | .rawDelta (d + 1) => .absolute (now + (d + 1))

/-- A `ProcessorType` record: the class attributes `Processor.new`
(processor.py:180-245) sets on the dynamically created subclass (state,
source and updater fields are omitted: the claims here do not mention
them and no modelled operation reads them). -/
structure ProcTypeM : Type where
  type : String
  rule : List Nat
  permission : List PermCheckerM
  handlers : List HandlerM
  temp : Bool
  priority : Nat
  block : Bool
  expire : ExpireTime

/-- `Processor.new` (processor.py:180-245): build the record and append
it to the registry (`processors[priority].append(NewProcessor)`; the
registry is modelled as the flat registration list, of which
`processors[priority]` is the priority-filtered view). -/
def processorNew (registry : List ProcTypeM) (type_ : String) (rule : List Nat)
    (permission : List PermCheckerM) (handlers : List HandlerM) (temp : Bool)
    (priority : Nat) (block : Bool) (now : Nat) (expire : ExpireTime) :
    ProcTypeM × List ProcTypeM :=
  let np : ProcTypeM :=
    ⟨type_, rule, permission, handlers, temp, priority, block,
      newExpireTime now expire⟩
  (np, registry ++ [np])

/-- How the `while self.handlers: handler = self.handlers.pop(0)` loop of
`Processor._run` (processor.py:584-602) ends. -/
inductive RunExit : Type where
  /-- The chain was exhausted, or `StopPropagation` was caught and set
  `self.block = True` (processor.py:599-600). -/
  | completed (blocked : Bool)
  | finished (remaining : List HandlerM)
  | paused (remaining : List HandlerM)
  /-- `RejectedException`: `current` is the handler that raised (the
  value of the `current_handler` context var). -/
  | rejected (current : HandlerM) (remaining : List HandlerM)
  | errored (remaining : List HandlerM)
  deriving DecidableEq, Repr

/-- The handler loop of `Processor._run` (processor.py:584-598): handlers
are popped off the front one at a time; `SkippedException` aborts only
the current handler; the other exceptions end the loop with the popped
handler chain in the state recorded by `RunExit`. -/
def runHandlerLoop : List HandlerM → RunExit
  | [] => .completed false
  | h :: rest =>
    match h.sig with
    | .normal => runHandlerLoop rest
    | .skip => runHandlerLoop rest
    | .finish => .finished rest
    | .pause => .paused rest
    | .reject => .rejected h rest
    | .stop => .completed true
    | .err => .errored rest

/-- `Processor.update_type` (processor.py:512-529) with no
`_default_type_updater` set: the literal `message`. -/
def updateType (_pt : ProcTypeM) : String := "message"

/-- `Processor.update_permission` (processor.py:531-547) with no
`_default_permission_updater` set:
`Permission(User.from_event(event, perm=self.permission))`. -/
def updatePermission (pt : ProcTypeM) (e : EventM) : List PermCheckerM :=
  [userFromEvent e pt.permission]

/-- `Processor.run` (processor.py:604-653), returning the updated
registry: on `RejectedException`, `resolve_reject`
(processor.py:549-553) re-inserts the raising handler at the front of
the remaining chain; on both reject and pause exactly one temporary,
priority-0, blocking continuation with an empty `Rule()` and the
session-narrowed permission is registered with
`expire_time = bot.config.session_expire_timeout`; `FinishedException`
and every other exit register nothing. -/
def processorRun (registry : List ProcTypeM) (pt : ProcTypeM) (e : EventM)
    (now sessionTimeout : Nat) : List ProcTypeM :=
  match runHandlerLoop pt.handlers with
  | .rejected h rem =>
    (processorNew registry (updateType pt) [] (updatePermission pt e)
      (h :: rem) true 0 true now (.rawDelta sessionTimeout)).2
  | .paused rem =>
    (processorNew registry (updateType pt) [] (updatePermission pt e)
      rem true 0 true now (.rawDelta sessionTimeout)).2
  | _ => registry

theorem runHandlerLoop_pause (pre post : List HandlerM) (hp : HandlerM)
    (hpre : ∀ h ∈ pre, h.sig = HandlerSignal.normal ∨ h.sig = HandlerSignal.skip)
    (hsig : hp.sig = HandlerSignal.pause) :
    runHandlerLoop (pre ++ hp :: post) = .paused post := by
  induction pre with
  | nil =>
    rw [List.nil_append, runHandlerLoop, hsig]
  | cons h rest ih =>
    rcases hpre h (List.mem_cons_self h rest) with h1 | h1 <;>
      rw [List.cons_append, runHandlerLoop, h1] <;>
      exact ih (fun x hx => hpre x (List.mem_cons_of_mem h hx))

theorem runHandlerLoop_reject (pre post : List HandlerM) (hr : HandlerM)
    (hpre : ∀ h ∈ pre, h.sig = HandlerSignal.normal ∨ h.sig = HandlerSignal.skip)
    (hsig : hr.sig = HandlerSignal.reject) :
    runHandlerLoop (pre ++ hr :: post) = .rejected hr post := by
  induction pre with
  | nil =>
    rw [List.nil_append, runHandlerLoop, hsig]
  | cons h rest ih =>
    rcases hpre h (List.mem_cons_self h rest) with h1 | h1 <;>
      rw [List.cons_append, runHandlerLoop, h1] <;>
      exact ih (fun x hx => hpre x (List.mem_cons_of_mem h hx))

/-- A `User` checker for another session is false regardless of the
wrapped permission: `session in self.users` fails first
(permission.py:104-111). -/
theorem userFromEvent_other_session (e : EventM) (perm : List PermCheckerM)
    (s : String) (hs : s ≠ e.sessionId) :
    PermCheckerM.eval s (userFromEvent e perm) = false := by
  have hc : ([e.sessionId].contains s) = false := by
    simp [hs]
  rw [userFromEvent]
  rw [PermCheckerM.eval.eq_def]
  simp only []
  rw [hc, Bool.false_and]

/-- A permission with a single checker holds exactly when that checker
evaluates true. -/
theorem permissionHolds_singleton (s : String) (c : PermCheckerM) :
    permissionHolds s [c] = PermCheckerM.eval s c := by
  rw [permissionHolds.eq_def]
  simp only []
  rw [permissionAny.eq_def]
  simp only []
  rw [permissionAny.eq_def]
  simp only [Bool.or_false]

/-- C1: if handler `k` (1-indexed, here `pre.length + 1` with `pre` the
handlers before it) raises `PausedException` during `run()`, exactly one
new temporary `ProcessorType` is appended to the registry, at priority 0
with `block` set, whose permission is the session-narrowed
`Permission(User.from_event(event, perm=self.permission))` — false for
any other session id — whose handler chain is exactly the `N − k`
handlers after handler `k` (so the continuation resumes at handler
`k + 1`), and whose expire time is the current time plus the configured
session timeout. -/
theorem pause_registers_resume_continuation
    (registry : List ProcTypeM) (pt : ProcTypeM) (e : EventM)
    (now timeout : Nat) (pre post : List HandlerM) (hp : HandlerM)
    (hchain : pt.handlers = pre ++ hp :: post)
    (hpre : ∀ h ∈ pre, h.sig = HandlerSignal.normal ∨ h.sig = HandlerSignal.skip)
    (hsig : hp.sig = HandlerSignal.pause)
    (htimeout : 0 < timeout)
    (s : String) (hs : s ≠ e.sessionId) :
    processorRun registry pt e now timeout
      = registry ++ [⟨"message", [], [userFromEvent e pt.permission], post,
          true, 0, true, ExpireTime.absolute (now + timeout)⟩] ∧
    pt.handlers.drop (pre.length + 1) = post ∧
    post.length = pt.handlers.length - (pre.length + 1) ∧
    pt.handlers[pre.length + 1]? = post.head? ∧
    permissionHolds s [userFromEvent e pt.permission] = false := by
  obtain ⟨d, rfl⟩ : ∃ d, timeout = d + 1 := ⟨timeout - 1, by omega⟩
  have hloop := runHandlerLoop_pause pre post hp hpre hsig
  have hdrop : pt.handlers.drop (pre.length + 1) = post := by
    rw [hchain, List.append_cons]
    have hlen : (pre ++ [hp]).length = pre.length + 1 := by simp
    rw [← hlen, List.drop_left]
  refine ⟨?_, hdrop, ?_, ?_, ?_⟩
  · simp only [processorRun, hchain, hloop, processorNew, updateType,
      updatePermission, newExpireTime]
  · rw [hchain]
    simp only [List.length_append, List.length_cons]
    omega
  · rw [← hdrop, List.head?_eq_getElem?, List.getElem?_drop]
  · rw [permissionHolds_singleton]
    exact userFromEvent_other_session e pt.permission s hs

/-- First concrete handler: runs normally. -/
def wHandler0 : HandlerM := ⟨0, HandlerSignal.normal⟩

/-- Second concrete handler: raises `PausedException`. -/
def wHandler1 : HandlerM := ⟨1, HandlerSignal.pause⟩

/-- Third concrete handler: never reached in the first run. -/
def wHandler2 : HandlerM := ⟨2, HandlerSignal.normal⟩

/-- A registered processor type with a 3-handler chain whose second
handler pauses. -/
def wProcPause : ProcTypeM :=
  ⟨"message", [], [PermCheckerM.plain 0 true],
    [wHandler0, wHandler1, wHandler2], false, 1, false, ExpireTime.never⟩

/-- The concrete triggering event. -/
def wEvent : EventM := ⟨"sess-1"⟩

/-- Witness for C1 with `N = 3`, `k = 2`: the continuation holds exactly
handler 3, is temporary, priority 0, blocking, session-narrowed and
expires at `100 + 50`. -/
theorem pause_registers_resume_continuation_witness :
    processorRun [] wProcPause wEvent 100 50
      = [⟨"message", [], [userFromEvent wEvent wProcPause.permission],
          [wHandler2], true, 0, true, ExpireTime.absolute 150⟩] ∧
    wProcPause.handlers.drop 2 = [wHandler2] ∧
    ([wHandler2] : List HandlerM).length = wProcPause.handlers.length - 2 ∧
    wProcPause.handlers[2]? = ([wHandler2] : List HandlerM).head? ∧
    permissionHolds "other" [userFromEvent wEvent wProcPause.permission] = false :=
  pause_registers_resume_continuation [] wProcPause wEvent 100 50
    [wHandler0] [wHandler2] wHandler1 rfl (by decide) rfl (by decide)
    "other" (by decide)

/-- C2: if handler `k` raises `RejectedException` during `run()`, the
continuation `ProcessorType` registered (again: exactly one, temporary,
priority 0, blocking, session-narrowed, expiring at now + session
timeout) has a handler chain that begins with handler `k` itself followed
by the handlers after `k` — `resolve_reject` re-inserts the raising
handler at the front — so running the continuation re-runs handler `k`
first. -/
theorem reject_registers_rerun_continuation
    (registry : List ProcTypeM) (pt : ProcTypeM) (e : EventM)
    (now timeout : Nat) (pre post : List HandlerM) (hr : HandlerM)
    (hchain : pt.handlers = pre ++ hr :: post)
    (hpre : ∀ h ∈ pre, h.sig = HandlerSignal.normal ∨ h.sig = HandlerSignal.skip)
    (hsig : hr.sig = HandlerSignal.reject)
    (htimeout : 0 < timeout)
    (s : String) (hs : s ≠ e.sessionId) :
    processorRun registry pt e now timeout
      = registry ++ [⟨"message", [], [userFromEvent e pt.permission],
          hr :: post, true, 0, true, ExpireTime.absolute (now + timeout)⟩] ∧
    pt.handlers.drop pre.length = hr :: post ∧
    (hr :: post).head? = some hr ∧
    permissionHolds s [userFromEvent e pt.permission] = false := by
  obtain ⟨d, rfl⟩ : ∃ d, timeout = d + 1 := ⟨timeout - 1, by omega⟩
  have hloop := runHandlerLoop_reject pre post hr hpre hsig
  refine ⟨?_, ?_, rfl, ?_⟩
  · simp only [processorRun, hchain, hloop, processorNew, updateType,
      updatePermission, newExpireTime]
  · rw [hchain, List.drop_left]
  · rw [permissionHolds_singleton]
    exact userFromEvent_other_session e pt.permission s hs

/-- A rejecting concrete handler. -/
def wHandler1r : HandlerM := ⟨1, HandlerSignal.reject⟩

/-- A registered processor type whose second handler rejects. -/
def wProcReject : ProcTypeM :=
  ⟨"message", [], [PermCheckerM.plain 0 true],
    [wHandler0, wHandler1r, wHandler2], false, 1, false, ExpireTime.never⟩

/-- Witness for C2 with `N = 3`, `k = 2`: the continuation chain is
handler 2 followed by handler 3. -/
theorem reject_registers_rerun_continuation_witness :
    processorRun [] wProcReject wEvent 100 50
      = [⟨"message", [], [userFromEvent wEvent wProcReject.permission],
          [wHandler1r, wHandler2], true, 0, true, ExpireTime.absolute 150⟩] ∧
    wProcReject.handlers.drop 1 = [wHandler1r, wHandler2] ∧
    ([wHandler1r, wHandler2] : List HandlerM).head? = some wHandler1r ∧
    permissionHolds "other" [userFromEvent wEvent wProcReject.permission] = false :=
  reject_registers_rerun_continuation [] wProcReject wEvent 100 50
    [wHandler0] [wHandler2] wHandler1r rfl (by decide) rfl (by decide)
    "other" (by decide)

/-!
## Dispatcher: `anonbot/message.py`

`handle_event` (message.py:427-494) iterates `sorted(processors.keys())`
ascending; per priority it gathers one `check_and_run_processor` task per
registered type with `return_exceptions=True` and scans the results: a
`StopPropagation` sets `break_flag`, skipping every remaining (lower)
priority level, after the whole current level has finished.
-/

/-- A registered `ProcessorType` as the dispatch of one fixed event sees
it: its priority and class-level `block` flag, plus the abstracted
outcomes against this event — whether `check_perm` and `check_rule` both
pass, whether `expire_time` has passed, and whether a handler raises
`StopPropagation` during `_run` (which sets the instance `block`,
processor.py:599-600). -/
structure DProc : Type where
  id : Nat
  priority : Nat
  block : Bool
  checkPasses : Bool
  expired : Bool
  runRaisesStop : Bool
  deriving DecidableEq, Repr

/-- `_check_processor` (message.py:310-340): an expired type is destroyed
and reports `False`; then permission and rule are checked, any checking
error counting as `False` (`checkPasses` abstracts both checks and their
error handling). -/
def checkProcessor (p : DProc) : Bool :=
  !p.expired && p.checkPasses

/-- The instance `block` flag when `_run_processor` inspects it after the
run (message.py:387): the class flag, or set by `StopPropagation` /
`stop()` during the run. -/
def blockAfterRun (p : DProc) : Bool :=
  p.block || p.runRaisesStop

/-- `check_and_run_processor` (message.py:390-425) as one gathered task:
`some ()` models the task ending with `raise StopPropagation`
(message.py:387-388), `none` a task that returned (check failed, or ran
without blocking; handler errors are caught and logged inside
`_run_processor`, message.py:374-376, and never escape). -/
def checkAndRunProcessor (p : DProc) : Option Unit :=
  if checkProcessor p then
    (if blockAfterRun p then some () else none)
  else none

/-- The processors of one priority level that actually run
(check passed, not expired). -/
def levelRan (procs : List DProc) : List DProc :=
  procs.filter (fun p => checkProcessor p)

/-- Whether the gathered results of one level contain a `StopPropagation`
(the `break_flag` scan, message.py:480-486). -/
def levelStops (procs : List DProc) : Bool :=
  procs.any (fun p => (checkAndRunProcessor p).isSome)

/-- The ascending priority-level loop of `handle_event`
(message.py:461-488): every level runs in full; after a level whose
results contain `StopPropagation`, the remaining levels are skipped. -/
def runLevels : List (List DProc) → List DProc
  | [] => []
  | l :: rest =>
    if levelStops l then levelRan l else levelRan l ++ runLevels rest

/-- Ascending insertion into a sorted list of priorities. -/
def insertAsc (n : Nat) : List Nat → List Nat
  | [] => [n]
  | m :: rest => if n ≤ m then n :: m :: rest else m :: insertAsc n rest

/-- Insertion sort, ascending. -/
def sortAsc : List Nat → List Nat
  | [] => []
  | n :: rest => insertAsc n (sortAsc rest)

/-- `sorted(processors.keys())` (message.py:462): the distinct priorities
present in the registry, ascending. -/
def sortedPriorities (procs : List DProc) : List Nat :=
  sortAsc ((procs.map (fun p => p.priority)).dedup)

/-- The dispatch loop of `handle_event` over a registry of processor
types: the list of processor types that run for this event. -/
def handleEventRan (procs : List DProc) : List DProc :=
  runLevels ((sortedPriorities procs).map
    (fun pr => procs.filter (fun p => p.priority == pr)))

theorem checkAndRunProcessor_isSome (p : DProc) :
    (checkAndRunProcessor p).isSome = (checkProcessor p && blockAfterRun p) := by
  rw [checkAndRunProcessor]
  cases hc : checkProcessor p <;> cases hb : blockAfterRun p <;> simp [hc, hb]

theorem levelStops_eq_false {l : List DProc}
    (hl : ∀ p ∈ l, checkProcessor p = true → blockAfterRun p = false) :
    levelStops l = false := by
  rw [levelStops, List.any_eq_false]
  intro p hp
  rw [checkAndRunProcessor_isSome]
  cases hc : checkProcessor p with
  | false => simp
  | true => simp [hl p hp hc]

/-- A blocking processor at priority 1 whose check passes. -/
def procA : DProc := ⟨0, 1, true, true, false, false⟩

/-- A non-blocking processor at priority 1 whose check passes. -/
def procB : DProc := ⟨1, 1, false, true, false, false⟩

/-- A processor at priority 2 whose check passes. -/
def procC : DProc := ⟨2, 2, false, true, false, false⟩

/-- A blocking processor at priority 1 whose rule/permission check does
NOT pass. -/
def procFailBlock : DProc := ⟨3, 1, true, false, false, false⟩

/-- A processor at priority 2 behind the failed-check blocker. -/
def procLow : DProc := ⟨4, 2, false, true, false, false⟩

/-- C4: with two processors at priority 1 — one of them blocking — and
one at priority 2, dispatching a matching event runs both priority-1
processors and never the priority-2 one; and in general a processor
whose rule/permission check did not pass never stops propagation: when
every processor that passes its check is non-blocking, every priority
level runs in full (failed-check processors may carry `block=True`
without effect). -/
theorem block_stops_lower_priorities :
    handleEventRan [procA, procB, procC] = [procA, procB] ∧
    procC ∉ handleEventRan [procA, procB, procC] ∧
    ∀ procs : List DProc,
      (∀ p ∈ procs, checkProcessor p = true → blockAfterRun p = false) →
      handleEventRan procs
        = ((sortedPriorities procs).map
            (fun pr => levelRan (procs.filter (fun p => p.priority == pr)))).flatten := by
  refine ⟨by decide, by decide, ?_⟩
  intro procs hprocs
  rw [handleEventRan]
  induction sortedPriorities procs with
  | nil => rfl
  | cons pr rest ih =>
    rw [List.map_cons, List.map_cons, runLevels, List.flatten_cons]
    have hstop : levelStops (procs.filter (fun p => p.priority == pr)) = false := by
      refine levelStops_eq_false ?_
      intro p hp
      exact hprocs p (List.mem_of_mem_filter hp)
    rw [hstop]
    simp only [Bool.false_eq_true, if_false]
    rw [ih]

/-- Witness for C4: the blocking scenario, and a failed-check blocker at
priority 1 that does not prevent the priority-2 processor from
running. -/
theorem block_stops_lower_priorities_witness :
    handleEventRan [procA, procB, procC] = [procA, procB] ∧
    handleEventRan [procFailBlock, procLow] = [procLow] :=
  ⟨block_stops_lower_priorities.1, by
    rw [block_stops_lower_priorities.2.2 [procFailBlock, procLow] (by decide)]
    decide⟩

/-!
### Check-phase state sharing

`handle_event` creates one dispatch `state` dict (message.py:443) and the
per-level task list passes the very same object to every
`check_and_run_processor` task — `state=state` in the comprehension at
message.py:469-479 — which hands it to `Processor.check_rule`
(message.py:333) and then to the run.  No copy is taken anywhere.  A rule
check is therefore a transformer of the one shared state; the concurrent
check phase is determinized by the legal schedule in which each check
completes before the next starts, threading the shared object through
them in sequence.
-/

/-- The check phase over the single shared state object (sequential
schedule): each check reads the state left by the previous one. -/
def checkPhaseShared {σ : Type} : List (σ → Bool × σ) → σ → List Bool × σ
  | [], s => ([], s)
  | c :: rest, s =>
    let r := c s
    let rr := checkPhaseShared rest r.2
    (r.1 :: rr.1, rr.2)

/-- The state value each check observes when it starts, under the shared
object. -/
def statesSeenShared {σ : Type} : List (σ → Bool × σ) → σ → List σ
  | [], _ => []
  | c :: rest, s => s :: statesSeenShared rest (c s).2

/-- Modelled from the spec: each check receives its own independent copy
of the dispatch state, so every check sees exactly the original state
and a mutation made by one check is invisible to the others. -/
def checkPhaseCopied {σ : Type} (checks : List (σ → Bool × σ)) (s : σ) : List Bool :=
  checks.map (fun c => (c s).1)

/-- Modelled from the spec: under independent copies every check starts
from the original dispatch state. -/
def statesSeenCopied {σ : Type} (checks : List (σ → Bool × σ)) (s : σ) : List σ :=
  checks.map (fun _ => s)

/-- A rule check that mutates the dispatch state (e.g. writes a parse
result into the dict). -/
def mutatingCheck : Nat → Bool × Nat := fun s => (true, s + 1)

/-- A rule check whose verdict reads the state. -/
def observingCheck : Nat → Bool × Nat := fun s => (s == 1, s)

/-- C6 counterexample: with the shared state object, a mutation made
while checking one processor's rule IS observable in the state seen by
another processor's check — the observed states and the check verdicts
differ from what independent copies would give. -/
theorem check_state_mutation_observable :
    statesSeenShared [mutatingCheck, observingCheck] 0 = [0, 1] ∧
    statesSeenCopied [mutatingCheck, observingCheck] 0 = [0, 0] ∧
    statesSeenShared [mutatingCheck, observingCheck] 0
      ≠ statesSeenCopied [mutatingCheck, observingCheck] 0 ∧
    (checkPhaseShared [mutatingCheck, observingCheck] 0).1 = [true, true] ∧
    checkPhaseCopied [mutatingCheck, observingCheck] 0 = [true, false] ∧
    (checkPhaseShared [mutatingCheck, observingCheck] 0).1
      ≠ checkPhaseCopied [mutatingCheck, observingCheck] 0 := by
  refine ⟨rfl, rfl, by decide, rfl, rfl, by decide⟩

/-- C6 amended: every check task receives the same shared dispatch state
(no copy is made), so a mutation made during one check is observable by
later-scheduled checks; the claimed independence holds exactly in the
degenerate case where no check mutates the state — then each check sees
the original state and the verdicts coincide with independent-copy
semantics. -/
theorem check_state_shared_not_copied {σ : Type}
    (checks : List (σ → Bool × σ)) (s : σ)
    (hpure : ∀ c ∈ checks, ∀ t, (c t).2 = t) :
    (checkPhaseShared checks s).1 = checkPhaseCopied checks s ∧
    (checkPhaseShared checks s).2 = s ∧
    statesSeenShared checks s = statesSeenCopied checks s := by
  induction checks generalizing s with
  | nil => exact ⟨rfl, rfl, rfl⟩
  | cons c rest ih =>
    have hc := hpure c (List.mem_cons_self c rest)
    have ihr := ih s (fun x hx => hpure x (List.mem_cons_of_mem c hx))
    rw [checkPhaseShared, statesSeenShared, hc s]
    refine ⟨?_, ihr.2.1, ?_⟩
    · rw [checkPhaseCopied, List.map_cons]
      simp only []
      rw [ihr.1, checkPhaseCopied]
    · rw [statesSeenCopied, List.map_cons, ihr.2.2, statesSeenCopied]

/-- A check that reads but never writes the state. -/
def pureCheck : Nat → Bool × Nat := fun s => (s == 0, s)

/-- Witness for the amended C6: with non-mutating checks, shared-object
and independent-copy semantics agree. -/
theorem check_state_shared_not_copied_witness :
    (checkPhaseShared [pureCheck, pureCheck] 0).1
      = checkPhaseCopied [pureCheck, pureCheck] 0 ∧
    (checkPhaseShared [pureCheck, pureCheck] 0).2 = 0 ∧
    statesSeenShared [pureCheck, pureCheck] 0
      = statesSeenCopied [pureCheck, pureCheck] 0 :=
  check_state_shared_not_copied [pureCheck, pureCheck] 0
    (by
      intro c hc t
      rcases List.mem_cons.mp hc with h | h
      · subst h; rfl
      · rw [List.mem_singleton] at h; subst h; rfl)

end AnonBot
